import Mathlib

/-!
Verification of the local-router gateway (Go sources under `src/server/`)
against its natural-language specification.

The development shallowly embeds the Go code:
* dynamic JSON values (`map[string]interface{}` et al.) become the inductive
  `JVal`, with Go map indexing / assignment / deletion as `J.get` / `J.set` /
  `J.del` on association lists;
* `FindProvider`, `GetActualModelName` (types.go), `Config.Validate`
  (config.go), `ConfigReloadHandler`, `ForwardRequest`'s body transformation
  and `HandleStreamResponse` (handlers.go) become the functions of the same
  names below;
* the external library calls `json.Unmarshal` (decoding one SSE payload) and
  `url.Parse` (error side only) are passed in as parameters `dec`
  (`String → Option JObj`) and `urlErr` (`String → Option String`), exactly at
  the call sites the Go code uses them.
-/

namespace LocalRouter

/-! ## Definitions: the embedding of the Go sources, the observation
functions, and the concrete inputs used by witnesses and counterexamples -/

/-- A dynamic JSON value, as produced by Go's `json.Unmarshal` into
`map[string]interface{}` (numbers are abstracted to `Int`; no claim here
depends on numeric representation). -/
inductive JVal where
  | null : JVal
  | bool : Bool → JVal
  | num : Int → JVal
  | str : String → JVal
  | arr : List JVal → JVal
  | obj : List (String × JVal) → JVal
deriving Repr

/-- A JSON object: the embedding of Go's `map[string]interface{}` as an
association list (Go maps are unordered with unique keys; the list order is a
representation artifact, used consistently on both sides of every theorem). -/
abbrev JObj := List (String × JVal)

/-- Go map indexing `m[key]`: `some v` when present, `none` when absent. -/
def J.get : JObj → String → Option JVal
  | [], _ => none
  | (k, v) :: rest, key => if k = key then some v else get rest key

/-- Go map assignment `m[key] = v`: replace the value at an existing key,
otherwise add the binding. -/
def J.set : JObj → String → JVal → JObj
  | [], key, v => [(key, v)]
  | (k, w) :: rest, key, v =>
    if k = key then (k, v) :: rest else (k, w) :: set rest key v

/-- Go `delete(m, key)`. -/
def J.del : JObj → String → JObj
  | [], _ => []
  | (k, w) :: rest, key =>
    if k = key then del rest key else (k, w) :: del rest key

/-- Go type assertion `m[key].(string)` (ok-pattern). -/
def J.getStr (o : JObj) (key : String) : Option String :=
  match get o key with
  | some (.str s) => some s
  | _ => none

/-- Go type assertion `m[key].(map[string]interface{})` (ok-pattern). -/
def J.getObj (o : JObj) (key : String) : Option JObj :=
  match get o key with
  | some (.obj m) => some m
  | _ => none

/-- Go type assertion `m[key].([]interface{})` (ok-pattern). -/
def J.getArr (o : JObj) (key : String) : Option (List JVal) :=
  match get o key with
  | some (.arr xs) => some xs
  | _ => none

/-- Go `b, _ := m[key].(bool)`: the asserted boolean, defaulting to `false`
when the key is absent or its value is not a boolean. -/
def J.getBoolD (o : JObj) (key : String) : Bool :=
  match get o key with
  | some (.bool b) => b
  | _ => false

/-- A configured upstream provider (types.go `Provider`). -/
structure Provider where
  Name : String
  URL : String
  Secret : String
  Models : List String
deriving DecidableEq, Repr

/-- The gateway configuration (types.go `Config`). -/
structure Config where
  Port : Int
  LogLevel : String
  Providers : List Provider
deriving DecidableEq, Repr

/-- The match test inside `FindProvider`'s loop (types.go):
`len(modelName) > len(provider.Name)+2 && modelName[0] == '[' &&
modelName[len(provider.Name)+1] == ']' &&
modelName[1:len(provider.Name)+1] == provider.Name`
(Go strings embedded as their character sequences). -/
def providerMatches (p : Provider) (modelName : String) : Bool :=
  let cs := modelName.data
  let n := p.Name.data.length
  decide (n + 2 < cs.length) && (cs.get? 0 == some '[') &&
    (cs.get? (n + 1) == some ']') && ((cs.drop 1).take n == p.Name.data)

/-- types.go `FindProvider`: the first provider in configuration order whose
bracketed name matches, else not-found. -/
def FindProvider (ps : List Provider) (modelName : String) : Option Provider :=
  ps.find? (fun p => providerMatches p modelName)

/-- types.go `GetActualModelName`: strip `[name]` of the found provider
(`modelName[len(provider.Name)+2:]`), identity when no provider matches. -/
def GetActualModelName (ps : List Provider) (modelName : String) : String :=
  match FindProvider ps modelName with
  | some p => String.mk (modelName.data.drop (p.Name.data.length + 2))
  | none => modelName

/-- The inner `for j, model := range provider.Models` loop of
`Config.Validate` (config.go), carrying the running index `j`. -/
def validateModels (name : String) : Nat → List String → Except String Unit
  | _, [] => Except.ok ()
  | j, m :: rest =>
    if m = "" then Except.error s!"provider {name}: model {j+1} cannot be empty"
    else validateModels name (j+1) rest

/-- The `for i, provider := range c.Providers` loop of `Config.Validate`
(config.go), carrying the running index `i`.  `urlErr` stands for the external
`url.Parse` call: `none` when the URL parses, `some e` when it fails with
error text `e`. -/
def validateProviders (urlErr : String → Option String) :
    Nat → List Provider → Except String Unit
  | _, [] => Except.ok ()
  | i, p :: rest =>
    if p.Name = "" then Except.error s!"provider {i+1}: name cannot be empty"
    else if p.URL = "" then
      Except.error s!"provider {p.Name}: URL cannot be empty"
    else match urlErr p.URL with
      | some e => Except.error s!"provider {p.Name}: invalid URL: {e}"
      | none =>
        if p.Secret = "" then
          Except.error s!"provider {p.Name}: secret cannot be empty"
        else if p.Models.isEmpty then
          Except.error s!"provider {p.Name}: at least one model must be specified"
        else match validateModels p.Name 0 p.Models with
          | Except.error e => Except.error e
          | Except.ok _ => validateProviders urlErr (i+1) rest

/-- config.go `Config.Validate`. -/
def Config.Validate (c : Config) (urlErr : String → Option String) :
    Except String Unit :=
  if c.Port ≤ 0 ∨ 65535 < c.Port then
    Except.error "port must be between 1 and 65535"
  else if c.Providers.isEmpty then
    Except.error "at least one provider must be configured"
  else validateProviders urlErr 0 c.Providers

/-- The HTTP response of the reload endpoint, by outcome. -/
inductive ReloadResponse where
  | loadFailed (details : String)
  | validationFailed (details : String)
  | reloadOk (providerCount : Nat)
deriving DecidableEq, Repr

/-- handlers.go `ConfigReloadHandler` (POST path): `loadResult` is the result
of the external `loadConfig(s.configPath)` call; the function returns the
configuration installed afterwards together with the response written.  The
candidate replaces `installed` only after `Validate` succeeds. -/
def ConfigReloadHandler (urlErr : String → Option String) (installed : Config)
    (loadResult : Except String Config) : Config × ReloadResponse :=
  match loadResult with
  | Except.error e => (installed, ReloadResponse.loadFailed e)
  | Except.ok newConfig =>
    match newConfig.Validate urlErr with
    | Except.error e => (installed, ReloadResponse.validationFailed e)
    | Except.ok _ => (newConfig, ReloadResponse.reloadOk newConfig.Providers.length)

/-- The body transformation step of handlers.go `ForwardRequest`, between the
successful parse of the inbound body and the outbound `json.Marshal`:
extract `model` (`400` when absent or non-string, modelled as `none`), resolve
the provider (`none` when not found), record the client's `stream` intent via
the ok-pattern assertion, overwrite `model` with the stripped name and force
`stream` to `true`.  Returns `(clientRequestedStream, outbound body)`. -/
def ForwardRequestTransform (ps : List Provider) (requestBody : JObj) :
    Option (Bool × JObj) :=
  match J.getStr requestBody "model" with
  | none => none
  | some modelName =>
    match FindProvider ps modelName with
    | none => none
    | some _ =>
      let clientRequestedStream := J.getBoolD requestBody "stream"
      let actualModelName := GetActualModelName ps modelName
      some (clientRequestedStream,
        J.set (J.set requestBody "model" (JVal.str actualModelName)) "stream"
          (JVal.bool true))

/-- Go `strings.HasPrefix` (strings embedded as their character
sequences). -/
def goHasPrefix (s pre : String) : Bool :=
  s.data.take pre.data.length == pre.data

/-- Go `strings.TrimPrefix`: strip the prefix when present, otherwise return
the string unchanged. -/
def goTrimPrefix (s pre : String) : String :=
  if goHasPrefix s pre then String.mk (s.data.drop pre.data.length) else s

/-- One observable output action of `HandleStreamResponse` on the streaming
path: the literal `data: [DONE]\n\n` write, a `data: <json>\n\n` write
carrying a marshalled chunk, or a `flusher.Flush()`. -/
inductive Out where
  | dataDone : Out
  | dataChunk : JObj → Out
  | flush : Out
deriving Repr

/-- The loop state of `HandleStreamResponse`: `fullContent` builder,
`firstResponse` capture and `chunkCount`. -/
structure LoopState where
  fullContent : String
  firstResponse : Option JObj
  chunkCount : Nat
deriving Repr

/-- The `delta.content` text a chunk contributes to `fullContent`: the nested
ok-pattern chain `chunk["choices"].([]interface{})` nonempty,
`choices[0].(map)`, `choice["delta"].(map)`, `delta["content"].(string)`;
empty string when any step fails (no write to the builder). -/
def chunkFragment (chunk : JObj) : String :=
  match J.getArr chunk "choices" with
  | some (JVal.obj choice :: _) =>
    match J.getObj choice "delta" with
    | some delta =>
      match J.getStr delta "content" with
      | some c => c
      | none => ""
    | none => ""
  | _ => ""

/-- Whether the per-chunk streaming emission branch is reached: nonempty
`choices`, first choice an object, its `delta` an object. -/
def hasDeltaShape (chunk : JObj) : Bool :=
  match J.getArr chunk "choices" with
  | some (JVal.obj choice :: _) =>
    match J.getObj choice "delta" with
    | some _ => true
    | none => false
  | _ => false

/-- The identity-normalization slice of the reconstruction: re-point `id` at
the upstream string `id`, else at the string `trace_id`, then force `object`
and `model`. -/
def normalizeIdObjModel (chunk : JObj) (modelName : String) : JObj :=
  let withId :=
    match J.getStr chunk "id" with
    | some id => J.set chunk "id" (JVal.str id)
    | none =>
      match J.getStr chunk "trace_id" with
      | some tid => J.set chunk "id" (JVal.str tid)
      | none => chunk
  let withObject := J.set withId "object" (JVal.str "chat.completion.chunk")
  J.set withObject "model" (JVal.str modelName)

/-- The `reconstructedChunk` built in the streaming branch, given the matched
components: copy the chunk, normalize `id`/`object`/`model`, then overwrite
the first tool call's `id` inside the (shared) `delta` with the chunk's
current `id` value — the shallow copy in Go shares `choices`, so the
marshalled chunk sees that mutation, which the pure embedding applies by
rebuilding the path. -/
def reconstructChunk (chunk choice : JObj) (choicesTail : List JVal)
    (delta : JObj) (modelName : String) : JObj :=
  let withModel := normalizeIdObjModel chunk modelName
  match J.getArr delta "tool_calls" with
  | some (JVal.obj call :: tcTail) =>
    let idVal := (J.get withModel "id").getD JVal.null
    let call' := J.set call "id" idVal
    let delta' := J.set delta "tool_calls" (JVal.arr (JVal.obj call' :: tcTail))
    let choice' := J.set choice "delta" (JVal.obj delta')
    J.set withModel "choices" (JVal.arr (JVal.obj choice' :: choicesTail))
  | _ => withModel

/-- The reconstructed chunk as a function of the chunk alone, re-running the
same ok-pattern matches the loop established. -/
def normalizeChunk (chunk : JObj) (modelName : String) : JObj :=
  match J.getArr chunk "choices" with
  | some (JVal.obj choice :: choicesTail) =>
    match J.getObj choice "delta" with
    | some delta => reconstructChunk chunk choice choicesTail delta modelName
    | none => chunk
  | _ => chunk

/-- The writes one decoded chunk causes on the streaming path: a `data:` event
with the reconstructed chunk followed by an immediate flush when the emission
branch is reached, nothing otherwise (and nothing when the client did not
request streaming). -/
def chunkEmission (streaming : Bool) (chunk : JObj) (modelName : String) :
    List Out :=
  if streaming && hasDeltaShape chunk then
    [Out.dataChunk (normalizeChunk chunk modelName), Out.flush]
  else []

/-- The `for scanner.Scan()` loop of `HandleStreamResponse`: per line, ignore
lines without the `data:` marker; strip the marker (`strings.TrimPrefix`, no
whitespace trimming); stop on the exact payload `[DONE]` (emitting the
terminator and flushing when streaming); skip payloads `dec` rejects; for a
decoded chunk bump the count, capture the first response, append the fragment
and emit on the streaming path. -/
def processLines (dec : String → Option JObj) (streaming : Bool)
    (modelName : String) : List String → LoopState → List Out × LoopState
  | [], st => ([], st)
  | line :: rest, st =>
    if goHasPrefix line "data:" then
      let dataStr := goTrimPrefix line "data:"
      if dataStr = "[DONE]" then
        ((if streaming then [Out.dataDone, Out.flush] else []), st)
      else
        match dec dataStr with
        | none => processLines dec streaming modelName rest st
        | some chunk =>
          let st' : LoopState :=
            { fullContent := st.fullContent ++ chunkFragment chunk
              firstResponse :=
                match st.firstResponse with
                | none => some chunk
                | some f => some f
              chunkCount := st.chunkCount + 1 }
          let out := processLines dec streaming modelName rest st'
          (chunkEmission streaming chunk modelName ++ out.1, out.2)
    else processLines dec streaming modelName rest st

/-- The finalization block for a non-streaming client: on the captured first
chunk, when its first choice is an object holding a `delta` key, delete that
key and add the `message` object with role `assistant` and the accumulated
content; otherwise the template passes through unchanged. -/
def aggregateFirst (first : JObj) (fullContent : String) : JObj :=
  match J.getArr first "choices" with
  | some (JVal.obj choice :: choicesTail) =>
    match J.get choice "delta" with
    | some _ =>
      let choice' := J.set (J.del choice "delta") "message"
        (JVal.obj [("role", JVal.str "assistant"),
                   ("content", JVal.str fullContent)])
      J.set first "choices" (JVal.arr (JVal.obj choice' :: choicesTail))
    | none => first
  | _ => first

/-- The observable result of `HandleStreamResponse`: the streamed writes in
order, the single aggregated JSON body if one was written, and the final
counters. -/
structure StreamResult where
  out : List Out
  body : Option JObj
  chunkCount : Nat
  fullContent : String
deriving Repr

/-- handlers.go `HandleStreamResponse` over the scanned lines: run the loop
from the empty accumulator, then, for a non-streaming client with a captured
first response, write exactly the aggregated object as the body (no body at
all when nothing ever decoded). -/
def HandleStreamResponse (dec : String → Option JObj) (lines : List String)
    (isClientStreaming : Bool) (modelName : String) : StreamResult :=
  let r := processLines dec isClientStreaming modelName lines
    { fullContent := "", firstResponse := none, chunkCount := 0 }
  if isClientStreaming then
    { out := r.1, body := none, chunkCount := r.2.chunkCount
      fullContent := r.2.fullContent }
  else
    match r.2.firstResponse with
    | some f =>
      { out := r.1, body := some (aggregateFirst f r.2.fullContent)
        chunkCount := r.2.chunkCount, fullContent := r.2.fullContent }
    | none =>
      { out := r.1, body := none, chunkCount := r.2.chunkCount
        fullContent := r.2.fullContent }

/-- A line the lenient scanner treats as an SSE data event. -/
def isDataLine (l : String) : Bool := goHasPrefix l "data:"

/-- The payload after `strings.TrimPrefix(line, "data:")` (for data lines). -/
def payloadOf (l : String) : String := goTrimPrefix l "data:"

/-- A data line whose payload is exactly the `[DONE]` sentinel. -/
def isDoneLine (l : String) : Bool := isDataLine l && payloadOf l == "[DONE]"

/-- The lines the loop still reads: everything strictly before the first
`[DONE]` data line. -/
def linesBeforeDone : List String → List String
  | [] => []
  | l :: rest => if isDoneLine l then [] else l :: linesBeforeDone rest

/-- Whether the loop terminates via the `[DONE]` sentinel (rather than by
stream close). -/
def sawDone : List String → Bool
  | [] => false
  | l :: rest => isDoneLine l || sawDone rest

/-- The chunks successfully decoded before `[DONE]` or stream close, in event
order. -/
def decodedChunks (dec : String → Option JObj) (lines : List String) :
    List JObj :=
  (linesBeforeDone lines).filterMap
    (fun l => if isDataLine l then dec (payloadOf l) else none)

/-- Concatenation, in event order, of every chunk's `delta.content`
fragment. -/
def contentConcatChunks : List JObj → String
  | [] => ""
  | u :: rest => chunkFragment u ++ contentConcatChunks rest

/-- The full accumulated content for a line sequence. -/
def contentConcat (dec : String → Option JObj) (lines : List String) : String :=
  contentConcatChunks (decodedChunks dec lines)

/-- The streamed writes caused by a chunk list. -/
def emissionsFor (streaming : Bool) (modelName : String) :
    List JObj → List Out
  | [] => []
  | u :: rest =>
    chunkEmission streaming u modelName ++ emissionsFor streaming modelName rest

/-- The complete expected write sequence for a line sequence. -/
def expectedOut (dec : String → Option JObj) (streaming : Bool)
    (modelName : String) (lines : List String) : List Out :=
  emissionsFor streaming modelName (decodedChunks dec lines) ++
    (if streaming && sawDone lines then [Out.dataDone, Out.flush] else [])

/-- `firstResponse` capture: keep an already-captured chunk, else take the
new candidate. -/
def keepFirst (a b : Option JObj) : Option JObj :=
  match a with
  | none => b
  | some f => some f

/-- The two-provider configuration whose names collide through `]`. -/
def psCollide : List Provider :=
  [⟨"a", "u1", "s1", ["m"]⟩, ⟨"a]m", "u2", "s2", ["m"]⟩]

/-- The concrete inbound body of the C7 witness: a qualified model, a
`messages` array, an unknown field, no `stream` key. -/
def bodyC7 : JObj :=
  [("model", JVal.str "[a]m1"),
   ("messages", JVal.arr [JVal.obj [("role", JVal.str "user"),
     ("content", JVal.str "hi")]]),
   ("temperature", JVal.num 1)]

/-- The provider list of the C7 witness. -/
def psC7 : List Provider := [⟨"a", "https://x", "s", ["m1"]⟩]

/-- The outbound body the witness expects: `model` stripped, `stream`
appended. -/
def outC7 : JObj :=
  [("model", JVal.str "m1"),
   ("messages", JVal.arr [JVal.obj [("role", JVal.str "user"),
     ("content", JVal.str "hi")]]),
   ("temperature", JVal.num 1),
   ("stream", JVal.bool true)]

/-- The chunks carried by `data:` events in a write sequence, in order. -/
def emittedChunks (out : List Out) : List JObj :=
  out.filterMap (fun o =>
    match o with
    | Out.dataChunk c => some c
    | _ => none)

/-- Every write (a `[DONE]` terminator or a chunk event) is immediately
followed by a flush. -/
def wellFlushed : List Out → Bool
  | [] => true
  | Out.flush :: rest => wellFlushed rest
  | Out.dataDone :: Out.flush :: rest => wellFlushed rest
  | Out.dataChunk _ :: Out.flush :: rest => wellFlushed rest
  | _ => false

/-- Whether a template's first choice is an object holding a `delta` key (the
condition under which finalization builds a `message`). -/
def firstHasDeltaKey (f : JObj) : Bool :=
  match J.getArr f "choices" with
  | some (JVal.obj choice :: _) => (J.get choice "delta").isSome
  | _ => false

/-- The `message` value of a response body's first choice, if any. -/
def aggMessage (b : JObj) : Option JVal :=
  match J.getArr b "choices" with
  | some (JVal.obj choice :: _) => J.get choice "message"
  | _ => none

/-- The valid chunk of the C5 witness, decoded after a malformed frame. -/
def chunkC5 : JObj :=
  [("choices", JVal.arr [JVal.obj
    [("delta", JVal.obj [("content", JVal.str "ok")])]])]

/-- The payload of the C5 witness chunk. -/
def payloadC5 : String :=
  "\x7b\"choices\":[\x7b\"delta\":\x7b\"content\":\"ok\"\x7d\x7d]\x7d"

/-- The decoder of the C5 witness: accepts exactly the valid payload. -/
def decC5 : String → Option JObj :=
  fun p => if p = payloadC5 then some chunkC5 else none

/-- A whitespace character for trimming purposes. -/
def isSpaceChar (c : Char) : Bool :=
  c == ' ' || c == '\t' || c == '\n' || c == '\r'

/-- Whitespace trimming at both ends (the spec's "after trimming"). -/
def goTrimSpace (s : String) : String :=
  String.mk (((s.data.dropWhile isSpaceChar).reverse.dropWhile
    isSpaceChar).reverse)

/-- The chunk decoded after the space-prefixed sentinel in the C2
counterexample. -/
def chunkC2 : JObj :=
  [("choices", JVal.arr [JVal.obj
    [("delta", JVal.obj [("content", JVal.str "x")])]])]

/-- Its payload. -/
def payloadC2 : String :=
  "\x7b\"choices\":[\x7b\"delta\":\x7b\"content\":\"x\"\x7d\x7d]\x7d"

/-- The decoder of the C2 counterexample: `" [DONE]"` is not valid JSON and
fails to decode, exactly as Go's `json.Unmarshal` would. -/
def decC2 : String → Option JObj :=
  fun p => if p = payloadC2 then some chunkC2 else none

/-- The upstream lines of the C2 counterexample: the sentinel carried with the
conventional space after `data:`, then a decodable chunk. -/
def linesC2 : List String := ["data: [DONE]", "data:" ++ payloadC2]

/-- The successfully decoded chunk of the C4 counterexample: a final
usage-only frame with no `choices`. -/
def chunkC4 : JObj := [("usage", JVal.num 5)]

/-- Its payload. -/
def payloadC4 : String := "\x7b\"usage\":5\x7d"

/-- The decoder of the C4 counterexample. -/
def decC4 : String → Option JObj :=
  fun p => if p = payloadC4 then some chunkC4 else none

/-- The upstream lines of the C4 counterexample. -/
def linesC4 : List String := ["data:" ++ payloadC4]

/-- First chunk of the C3 counterexample (non-streaming scenario): upstream
`object` and `model` that differ from the normalized values. -/
def chunkC3a : JObj :=
  [("id", JVal.str "u1"), ("object", JVal.str "chat.completion"),
   ("model", JVal.str "up"),
   ("choices", JVal.arr [JVal.obj
     [("delta", JVal.obj [("content", JVal.str "a")])]])]

/-- Its payload. -/
def payloadC3a : String :=
  "\x7b\"id\":\"u1\",\"object\":\"chat.completion\",\"model\":\"up\",\"choices\":[\x7b\"delta\":\x7b\"content\":\"a\"\x7d\x7d]\x7d"

/-- Two chunks of the C3 counterexample (streaming scenario) whose upstream
ids differ. -/
def chunkC3b1 : JObj :=
  [("id", JVal.str "a"),
   ("choices", JVal.arr [JVal.obj
     [("delta", JVal.obj [("content", JVal.str "h")])]])]

/-- Second streaming chunk, id `b`. -/
def chunkC3b2 : JObj :=
  [("id", JVal.str "b"),
   ("choices", JVal.arr [JVal.obj
     [("delta", JVal.obj [("content", JVal.str "i")])]])]

/-- Payload of the first streaming chunk. -/
def payloadC3b1 : String :=
  "\x7b\"id\":\"a\",\"choices\":[\x7b\"delta\":\x7b\"content\":\"h\"\x7d\x7d]\x7d"

/-- Payload of the second streaming chunk. -/
def payloadC3b2 : String :=
  "\x7b\"id\":\"b\",\"choices\":[\x7b\"delta\":\x7b\"content\":\"i\"\x7d\x7d]\x7d"

/-- Decoder for the C3 counterexample. -/
def decC3 : String → Option JObj :=
  fun p =>
    if p = payloadC3a then some chunkC3a
    else if p = payloadC3b1 then some chunkC3b1
    else if p = payloadC3b2 then some chunkC3b2
    else none

/-- The aggregated body the non-streaming C3 scenario produces. -/
def bodyC3 : JObj :=
  [("id", JVal.str "u1"), ("object", JVal.str "chat.completion"),
   ("model", JVal.str "up"),
   ("choices", JVal.arr [JVal.obj
     [("message", JVal.obj [("role", JVal.str "assistant"),
       ("content", JVal.str "a")])]])]

/-- The two chunks of the C1 witness, fragments `He` and `llo`. -/
def chunkC1w1 : JObj :=
  [("id", JVal.str "w1"),
   ("choices", JVal.arr [JVal.obj
     [("delta", JVal.obj [("content", JVal.str "He")])]])]

/-- Second witness chunk. -/
def chunkC1w2 : JObj :=
  [("id", JVal.str "w1"),
   ("choices", JVal.arr [JVal.obj
     [("delta", JVal.obj [("content", JVal.str "llo")])]])]

/-- Payload of the first witness chunk. -/
def payloadC1w1 : String :=
  "\x7b\"id\":\"w1\",\"choices\":[\x7b\"delta\":\x7b\"content\":\"He\"\x7d\x7d]\x7d"

/-- Payload of the second witness chunk. -/
def payloadC1w2 : String :=
  "\x7b\"id\":\"w1\",\"choices\":[\x7b\"delta\":\x7b\"content\":\"llo\"\x7d\x7d]\x7d"

/-- Decoder of the C1 witness. -/
def decC1w : String → Option JObj :=
  fun p =>
    if p = payloadC1w1 then some chunkC1w1
    else if p = payloadC1w2 then some chunkC1w2
    else none

/-- Upstream lines of the C1 witness. -/
def linesC1w : List String :=
  ["data:" ++ payloadC1w1, "data:" ++ payloadC1w2, "data:[DONE]"]

/-- The aggregated body of the C1 witness. -/
def bodyC1w : JObj :=
  [("id", JVal.str "w1"),
   ("choices", JVal.arr [JVal.obj
     [("message", JVal.obj [("role", JVal.str "assistant"),
       ("content", JVal.str "Hello")])]])]

/-- First chunk of the C1 counterexample: a decodable chunk whose first choice
has no `delta` key. -/
def chunkC1a : JObj :=
  [("choices", JVal.arr [JVal.obj [("index", JVal.num 0)]])]

/-- Second chunk: a delta chunk carrying content `hi`. -/
def chunkC1b : JObj :=
  [("choices", JVal.arr [JVal.obj
    [("delta", JVal.obj [("content", JVal.str "hi")])]])]

/-- Payload of the first counterexample chunk. -/
def payloadC1a : String := "\x7b\"choices\":[\x7b\"index\":0\x7d]\x7d"

/-- Payload of the second counterexample chunk. -/
def payloadC1b : String :=
  "\x7b\"choices\":[\x7b\"delta\":\x7b\"content\":\"hi\"\x7d\x7d]\x7d"

/-- Decoder of the C1 counterexample. -/
def decC1 : String → Option JObj :=
  fun p =>
    if p = payloadC1a then some chunkC1a
    else if p = payloadC1b then some chunkC1b
    else none

/-- Upstream lines of the C1 counterexample. -/
def linesC1 : List String := ["data:" ++ payloadC1a, "data:" ++ payloadC1b]

/-- The first chunk of the C10 witness: a delta chunk with extra top-level
fields. -/
def chunkC10 : JObj :=
  [("id", JVal.str "t1"), ("created", JVal.num 7),
   ("choices", JVal.arr [JVal.obj
     [("delta", JVal.obj [("content", JVal.str "zz")])]])]

/-- Its payload. -/
def payloadC10 : String :=
  "\x7b\"id\":\"t1\",\"created\":7,\"choices\":[\x7b\"delta\":\x7b\"content\":\"zz\"\x7d\x7d]\x7d"

/-- Decoder of the C10 witness. -/
def decC10 : String → Option JObj :=
  fun p => if p = payloadC10 then some chunkC10 else none

/-- Upstream lines of the C10 witness. -/
def linesC10 : List String := ["data:" ++ payloadC10, "data:[DONE]"]

/-- The aggregated body of the C10 witness. -/
def bodyC10 : JObj :=
  [("id", JVal.str "t1"), ("created", JVal.num 7),
   ("choices", JVal.arr [JVal.obj
     [("message", JVal.obj [("role", JVal.str "assistant"),
       ("content", JVal.str "zz")])]])]

/-- First chunk of the C10 counterexample: decodable, no `delta` key in its
first choice. -/
def chunkC10x : JObj :=
  [("id", JVal.str "n1"),
   ("choices", JVal.arr [JVal.obj [("index", JVal.num 1)]])]

/-- Second chunk: a delta chunk. -/
def chunkC10y : JObj :=
  [("choices", JVal.arr [JVal.obj
    [("delta", JVal.obj [("content", JVal.str "zz")])]])]

/-- Payload of the first counterexample chunk. -/
def payloadC10x : String :=
  "\x7b\"id\":\"n1\",\"choices\":[\x7b\"index\":1\x7d]\x7d"

/-- Payload of the second counterexample chunk. -/
def payloadC10y : String :=
  "\x7b\"choices\":[\x7b\"delta\":\x7b\"content\":\"zz\"\x7d\x7d]\x7d"

/-- Decoder of the C10 counterexample. -/
def decC10x : String → Option JObj :=
  fun p =>
    if p = payloadC10x then some chunkC10x
    else if p = payloadC10y then some chunkC10y
    else none

/-- Upstream lines of the C10 counterexample. -/
def linesC10x : List String :=
  ["data:" ++ payloadC10x, "data:" ++ payloadC10y]

/-- The chunk of the C3 witness: no `id`, but a string `trace_id`. -/
def chunkC3w : JObj :=
  [("trace_id", JVal.str "tr7"),
   ("choices", JVal.arr [JVal.obj
     [("delta", JVal.obj [("content", JVal.str "q")])]])]

/-- Its payload. -/
def payloadC3w : String :=
  "\x7b\"trace_id\":\"tr7\",\"choices\":[\x7b\"delta\":\x7b\"content\":\"q\"\x7d\x7d]\x7d"

/-- Decoder of the C3 witness. -/
def decC3w : String → Option JObj :=
  fun p => if p = payloadC3w then some chunkC3w else none

/-- Upstream lines of the C3 witness. -/
def linesC3w : List String := ["data:" ++ payloadC3w]

/-- The chunk the C3 witness expects on the wire: `id` taken from
`trace_id`, `object` and `model` forced. -/
def normalizedC3w : JObj :=
  [("trace_id", JVal.str "tr7"),
   ("choices", JVal.arr [JVal.obj
     [("delta", JVal.obj [("content", JVal.str "q")])]]),
   ("id", JVal.str "tr7"),
   ("object", JVal.str "chat.completion.chunk"),
   ("model", JVal.str "mw")]

/-! ## Theorems -/

theorem J.get_set_self (o : JObj) (key : String) (v : JVal) :
    get (set o key v) key = some v := by
  induction o with
  | nil => simp [get, set]
  | cons kv rest ih =>
    obtain ⟨k, w⟩ := kv
    by_cases h : k = key
    · simp [get, set, h]
    · simp [get, set, h, ih]

theorem J.get_set_ne (o : JObj) (key other : String) (v : JVal)
    (h : other ≠ key) : get (set o key v) other = get o other := by
  induction o with
  | nil => simp [get, set, Ne.symm h]
  | cons kv rest ih =>
    obtain ⟨k, w⟩ := kv
    by_cases hk : k = key
    · subst hk
      simp [get, set, Ne.symm h]
    · by_cases ho : k = other
      · simp [get, set, hk, ho, h, Ne.symm h]
      · simp [get, set, hk, ho, ih]

theorem J.get_del_self (o : JObj) (key : String) :
    get (del o key) key = none := by
  induction o with
  | nil => simp [get, del]
  | cons kv rest ih =>
    obtain ⟨k, w⟩ := kv
    by_cases h : k = key
    · simp [del, h, ih]
    · simp [get, del, h, ih]

theorem J.get_del_ne (o : JObj) (key other : String) (h : other ≠ key) :
    get (del o key) other = get o other := by
  induction o with
  | nil => simp [del]
  | cons kv rest ih =>
    obtain ⟨k, w⟩ := kv
    by_cases hk : k = key
    · subst hk
      simp [get, del, Ne.symm h, ih]
    · by_cases ho : k = other
      · simp [get, del, hk, ho, h, Ne.symm h]
      · simp [get, del, hk, ho, ih]

theorem keepFirst_none (b : Option JObj) : keepFirst none b = b := rfl

theorem keepFirst_keepFirst_some (a : Option JObj) (c : JObj)
    (b : Option JObj) : keepFirst (keepFirst a (some c)) b = keepFirst a (some c) := by
  cases a <;> rfl

theorem processLines_cons_notData (dec : String → Option JObj) (s : Bool)
    (m l : String) (rest : List String) (st : LoopState)
    (h : goHasPrefix l "data:" = false) :
    processLines dec s m (l :: rest) st = processLines dec s m rest st := by
  simp [processLines, h]

theorem processLines_cons_done (dec : String → Option JObj) (s : Bool)
    (m l : String) (rest : List String) (st : LoopState)
    (h1 : goHasPrefix l "data:" = true) (h2 : goTrimPrefix l "data:" = "[DONE]") :
    processLines dec s m (l :: rest) st =
      ((if s then [Out.dataDone, Out.flush] else []), st) := by
  simp [processLines, h1, h2]

theorem processLines_cons_skip (dec : String → Option JObj) (s : Bool)
    (m l : String) (rest : List String) (st : LoopState)
    (h1 : goHasPrefix l "data:" = true) (h2 : ¬ goTrimPrefix l "data:" = "[DONE]")
    (h3 : dec (goTrimPrefix l "data:") = none) :
    processLines dec s m (l :: rest) st = processLines dec s m rest st := by
  simp [processLines, h1, h2, h3]

theorem processLines_cons_chunk (dec : String → Option JObj) (s : Bool)
    (m l : String) (rest : List String) (st : LoopState) (chunk : JObj)
    (h1 : goHasPrefix l "data:" = true) (h2 : ¬ goTrimPrefix l "data:" = "[DONE]")
    (h3 : dec (goTrimPrefix l "data:") = some chunk) :
    processLines dec s m (l :: rest) st =
      (chunkEmission s chunk m ++
        (processLines dec s m rest
          { fullContent := st.fullContent ++ chunkFragment chunk
            firstResponse := keepFirst st.firstResponse (some chunk)
            chunkCount := st.chunkCount + 1 }).1,
       (processLines dec s m rest
          { fullContent := st.fullContent ++ chunkFragment chunk
            firstResponse := keepFirst st.firstResponse (some chunk)
            chunkCount := st.chunkCount + 1 }).2) := by
  cases hfr : st.firstResponse <;> simp [processLines, h1, h2, h3, keepFirst, hfr]

theorem decodedChunks_cons_notData (dec : String → Option JObj) (l : String)
    (rest : List String) (h : isDataLine l = false) :
    decodedChunks dec (l :: rest) = decodedChunks dec rest ∧
      sawDone (l :: rest) = sawDone rest := by
  have hNotDone : isDoneLine l = false := by simp [isDoneLine, h]
  constructor
  · simp [decodedChunks, linesBeforeDone, hNotDone, h]
  · simp [sawDone, hNotDone]

theorem decodedChunks_cons_done (dec : String → Option JObj) (l : String)
    (rest : List String) (h : isDoneLine l = true) :
    decodedChunks dec (l :: rest) = [] ∧ sawDone (l :: rest) = true := by
  constructor
  · simp [decodedChunks, linesBeforeDone, h]
  · simp [sawDone, h]

theorem decodedChunks_cons_skip (dec : String → Option JObj) (l : String)
    (rest : List String) (h1 : isDataLine l = true) (h2 : isDoneLine l = false)
    (h3 : dec (payloadOf l) = none) :
    decodedChunks dec (l :: rest) = decodedChunks dec rest ∧
      sawDone (l :: rest) = sawDone rest := by
  constructor
  · simp [decodedChunks, linesBeforeDone, h2, h1, h3]
  · simp [sawDone, h2]

theorem decodedChunks_cons_chunk (dec : String → Option JObj) (l : String)
    (rest : List String) (chunk : JObj) (h1 : isDataLine l = true)
    (h2 : isDoneLine l = false) (h3 : dec (payloadOf l) = some chunk) :
    decodedChunks dec (l :: rest) = chunk :: decodedChunks dec rest ∧
      sawDone (l :: rest) = sawDone rest := by
  constructor
  · simp [decodedChunks, linesBeforeDone, h2, h1, h3]
  · simp [sawDone, h2]

/-- Master lemma: the scanner loop computes exactly the observation
functions — the writes are `expectedOut`, the accumulated content is the
in-order fragment concatenation, the captured first response is the head of
the decoded chunks, and the chunk count is their number. -/
theorem processLines_characterization (dec : String → Option JObj)
    (streaming : Bool) (modelName : String) (lines : List String) :
    ∀ st : LoopState,
      processLines dec streaming modelName lines st =
        (expectedOut dec streaming modelName lines,
         { fullContent := st.fullContent ++ contentConcat dec lines
           firstResponse :=
             keepFirst st.firstResponse (decodedChunks dec lines).head?
           chunkCount := st.chunkCount + (decodedChunks dec lines).length }) := by
  induction lines with
  | nil =>
    intro st
    obtain ⟨fc, fr, cc⟩ := st
    cases fr <;>
      simp [processLines, expectedOut, decodedChunks, linesBeforeDone,
        contentConcat, contentConcatChunks, sawDone, emissionsFor,
        String.append_empty, keepFirst]
  | cons l rest ih =>
    intro st
    by_cases hd : goHasPrefix l "data:"
    · by_cases hdone : goTrimPrefix l "data:" = "[DONE]"
      · have hDoneLine : isDoneLine l = true := by
          simp [isDoneLine, isDataLine, payloadOf, hd, hdone]
        obtain ⟨hc, hs⟩ := decodedChunks_cons_done dec l rest hDoneLine
        rw [processLines_cons_done dec streaming modelName l rest st hd hdone]
        obtain ⟨fc, fr, cc⟩ := st
        simp only [expectedOut, contentConcat, hc, hs]
        cases fr <;>
          simp [contentConcatChunks, emissionsFor, String.append_empty,
            keepFirst]
      · have hNotDone : isDoneLine l = false := by
          simp [isDoneLine, isDataLine, payloadOf, hd, hdone]
        cases hdec : dec (goTrimPrefix l "data:") with
        | none =>
          obtain ⟨hc, hs⟩ := decodedChunks_cons_skip dec l rest
            (by simpa [isDataLine] using hd) hNotDone
            (by simpa [payloadOf] using hdec)
          rw [processLines_cons_skip dec streaming modelName l rest st hd hdone
            hdec, ih st]
          simp only [expectedOut, contentConcat, hc, hs]
        | some chunk =>
          obtain ⟨hc, hs⟩ := decodedChunks_cons_chunk dec l rest chunk
            (by simpa [isDataLine] using hd) hNotDone
            (by simpa [payloadOf] using hdec)
          rw [processLines_cons_chunk dec streaming modelName l rest st chunk
            hd hdone hdec, ih]
          simp only [expectedOut, contentConcat, hc, hs]
          simp only [contentConcatChunks, emissionsFor, List.head?_cons,
            List.length_cons, keepFirst_keepFirst_some, String.append_assoc,
            List.append_assoc, Prod.mk.injEq, LoopState.mk.injEq]
          refine ⟨trivial, trivial, trivial, by omega⟩
    · have hd' : goHasPrefix l "data:" = false := by simpa using hd
      obtain ⟨hc, hs⟩ := decodedChunks_cons_notData dec l rest
        (by simpa [isDataLine] using hd')
      rw [processLines_cons_notData dec streaming modelName l rest st hd',
        ih st]
      simp only [expectedOut, contentConcat, hc, hs]

/-! ## Claim C6: routing by bracketed provider prefix -/

theorem string_ne_empty_iff_data (s : String) : s ≠ "" ↔ s.data ≠ [] := by
  constructor
  · intro h hc
    exact h (String.ext (by simp [hc]))
  · intro h hc
    exact h (by simp [hc])

/-- The match test of `FindProvider` holds exactly when the identifier
decomposes as `[` ++ name ++ `]` ++ M with a non-empty remainder M. -/
theorem providerMatches_iff (p : Provider) (m : String) :
    providerMatches p m = true ↔
      ∃ M : String, M ≠ "" ∧ m = "[" ++ p.Name ++ "]" ++ M := by
  unfold providerMatches
  simp only [Bool.and_eq_true, beq_iff_eq, decide_eq_true_eq]
  constructor
  · rintro ⟨⟨⟨hlen, h0⟩, hn⟩, htake⟩
    cases hcs : m.data with
    | nil => rw [hcs] at h0; simp [List.get?] at h0
    | cons c cs₁ =>
      rw [hcs] at h0 hn htake hlen
      have hc : c = '[' := by simpa [List.get?] using h0
      have hdrop : (c :: cs₁).drop 1 = cs₁ := rfl
      rw [hdrop] at htake
      have hsplit : cs₁ = p.Name.data ++ cs₁.drop p.Name.data.length := by
        conv_lhs => rw [← List.take_append_drop p.Name.data.length cs₁]
        rw [htake]
      have hn' : cs₁.get? p.Name.data.length = some ']' := by
        simpa [List.get?] using hn
      have hget : (cs₁.drop p.Name.data.length).get? 0 = some ']' := by
        rw [hsplit] at hn'
        rwa [List.get?_append_right (Nat.le_refl _), Nat.sub_self] at hn'
      cases htail : cs₁.drop p.Name.data.length with
      | nil => rw [htail] at hget; simp [List.get?] at hget
      | cons d cs₃ =>
        have hd : d = ']' := by
          rw [htail] at hget; simpa [List.get?] using hget
        refine ⟨String.mk cs₃, ?_, ?_⟩
        · rw [string_ne_empty_iff_data]
          intro hnil
          have hnil' : cs₃ = [] := hnil
          rw [htail, hd, hnil'] at hsplit
          have hlen₁ : cs₁.length = p.Name.data.length + 1 := by
            rw [hsplit]; simp
          simp only [List.length_cons, hlen₁] at hlen
          omega
        · apply String.ext
          rw [hcs, hc, String.data_append, String.data_append,
            String.data_append]
          rw [hsplit, htail, hd]
          simp
  · rintro ⟨M, hM, rfl⟩
    have hdata : ("[" ++ p.Name ++ "]" ++ M).data =
        '[' :: (p.Name.data ++ (']' :: M.data)) := by
      rw [String.data_append, String.data_append, String.data_append]
      simp
    have hMlen : 0 < M.data.length := by
      rcases List.length_pos.mpr ((string_ne_empty_iff_data M).mp hM) with h
      exact h
    refine ⟨⟨⟨?_, ?_⟩, ?_⟩, ?_⟩
    · rw [hdata]
      simp only [List.length_cons, List.length_append]
      omega
    · rw [hdata]; rfl
    · rw [hdata]
      show (p.Name.data ++ (']' :: M.data)).get? p.Name.data.length = some ']'
      rw [List.get?_append_right (Nat.le_refl _), Nat.sub_self]
      rfl
    · rw [hdata]
      show (p.Name.data ++ (']' :: M.data)).take p.Name.data.length =
        p.Name.data
      exact List.take_left p.Name.data (']' :: M.data)

/-- Stripping for the provider actually found: when the identifier decomposes
along the found provider's name, the remainder comes back exactly. -/
theorem getActualModelName_of_found (ps : List Provider) (m M : String)
    (p0 : Provider) (hfind : FindProvider ps m = some p0)
    (hm : m = "[" ++ p0.Name ++ "]" ++ M) :
    GetActualModelName ps m = M := by
  subst hm
  have hdata : ("[" ++ p0.Name ++ "]" ++ M).data =
      '[' :: ((p0.Name.data ++ [']']) ++ M.data) := by
    rw [String.data_append, String.data_append, String.data_append]
    simp
  have hlen : (p0.Name.data ++ [']']).length = p0.Name.data.length + 1 := by
    simp
  have hdrop : ("[" ++ p0.Name ++ "]" ++ M).data.drop
      (p0.Name.data.length + 2) = M.data := by
    rw [hdata]
    show ((p0.Name.data ++ [']']) ++ M.data).drop (p0.Name.data.length + 1) =
      M.data
    rw [← hlen]
    exact List.drop_left _ _
  unfold GetActualModelName
  rw [hfind]
  show String.mk (("[" ++ p0.Name ++ "]" ++ M).data.drop
    (p0.Name.data.length + 2)) = M
  rw [hdrop]

/-- Claim C6 (amended): `FindProvider` returns the first provider in
configuration order whose bracketed name matches; the match test holds exactly
for identifiers of the form `[P]M` with non-empty `M` over the provider's
name; when the found provider's name is the decomposition used,
`GetActualModelName` returns exactly `M` (the original claim's unconditional
"returns exactly M" fails when a different configured name, containing `]`,
matches first — see the counterexample); any identifier matching no
configured provider yields not-found and the identity. -/
theorem claim_C6_amended :
    (∀ (p : Provider) (ps : List Provider) (m : String),
      FindProvider (p :: ps) m =
        if providerMatches p m then some p else FindProvider ps m)
    ∧ (∀ (p : Provider) (m : String),
        providerMatches p m = true ↔
          ∃ M : String, M ≠ "" ∧ m = "[" ++ p.Name ++ "]" ++ M)
    ∧ (∀ (ps : List Provider) (m M : String) (p0 : Provider),
        FindProvider ps m = some p0 → m = "[" ++ p0.Name ++ "]" ++ M →
          GetActualModelName ps m = M)
    ∧ (∀ (ps : List Provider) (P M : String), M ≠ "" →
        (∃ p ∈ ps, p.Name = P) →
          ∃ q, FindProvider ps ("[" ++ P ++ "]" ++ M) = some q)
    ∧ (∀ (ps : List Provider) (m : String),
        (∀ p ∈ ps, ∀ M : String, M ≠ "" → m ≠ "[" ++ p.Name ++ "]" ++ M) →
          FindProvider ps m = none ∧ GetActualModelName ps m = m) := by
  refine ⟨?_, providerMatches_iff, getActualModelName_of_found, ?_, ?_⟩
  · intro p ps m
    by_cases h : providerMatches p m = true
    · simp [FindProvider, List.find?, h]
    · simp only [Bool.not_eq_true] at h
      simp [FindProvider, List.find?, h]
  · intro ps P M hM hmem
    obtain ⟨p, hp, hname⟩ := hmem
    have hmatch : providerMatches p ("[" ++ P ++ "]" ++ M) = true := by
      rw [providerMatches_iff]
      exact ⟨M, hM, by rw [hname]⟩
    have : (FindProvider ps ("[" ++ P ++ "]" ++ M)).isSome := by
      rw [FindProvider, List.find?_isSome]
      exact ⟨p, hp, hmatch⟩
    obtain ⟨q, hq⟩ := Option.isSome_iff_exists.mp this
    exact ⟨q, hq⟩
  · intro ps m hnone
    have hfind : FindProvider ps m = none := by
      rw [FindProvider, List.find?_eq_none]
      intro p hp hmatch
      obtain ⟨M, hM, hm⟩ := (providerMatches_iff p m).mp hmatch
      exact hnone p hp M hM hm
    refine ⟨hfind, ?_⟩
    unfold GetActualModelName
    rw [hfind]

/-- Witness for C6: a configuration with one provider `a`; `[a]m1` resolves to
it and strips to `m1`, while `zzz` matches nothing and passes through. -/
theorem claim_C6_witness :
    FindProvider [⟨"a", "https://x", "s", ["m1"]⟩] "[a]m1" =
      some ⟨"a", "https://x", "s", ["m1"]⟩ ∧
    GetActualModelName [⟨"a", "https://x", "s", ["m1"]⟩] "[a]m1" = "m1" ∧
    FindProvider [⟨"a", "https://x", "s", ["m1"]⟩] "zzz" = none ∧
    GetActualModelName [⟨"a", "https://x", "s", ["m1"]⟩] "zzz" = "zzz" := by
  have h := claim_C6_amended
  have hfind : FindProvider [(⟨"a", "https://x", "s", ["m1"]⟩ : Provider)]
      "[a]m1" = some ⟨"a", "https://x", "s", ["m1"]⟩ := by
    rw [h.1]
    simp only [if_pos (by decide : providerMatches
      (⟨"a", "https://x", "s", ["m1"]⟩ : Provider) "[a]m1" = true)]
  have hstrip := h.2.2.1 [⟨"a", "https://x", "s", ["m1"]⟩] "[a]m1" "m1"
    ⟨"a", "https://x", "s", ["m1"]⟩ hfind (by decide)
  have hnone := h.2.2.2.2 [⟨"a", "https://x", "s", ["m1"]⟩] "zzz"
    (by
      intro p hp M hM hm
      simp only [List.mem_singleton] at hp
      subst hp
      have : providerMatches (⟨"a", "https://x", "s", ["m1"]⟩ : Provider)
          "zzz" = true := by
        rw [providerMatches_iff]
        exact ⟨M, hM, hm⟩
      exact absurd this (by decide))
  exact ⟨hfind, hstrip, hnone.1, hnone.2⟩

/-- Counterexample to C6 as stated: `a]m` is a configured provider name and
`[a]m]x` is `[` ++ `a]m` ++ `]` ++ `x` with `x` non-empty, yet
`GetActualModelName` returns `m]x`, not `x` (provider `a`, earlier in
configuration order, matches first). -/
theorem claim_C6_counterexample :
    (∃ p ∈ psCollide, p.Name = "a]m") ∧ ("x" : String) ≠ "" ∧
    "[a]m]x" = "[" ++ "a]m" ++ "]" ++ "x" ∧
    GetActualModelName psCollide "[a]m]x" = "m]x" ∧ ("m]x" : String) ≠ "x" := by
  refine ⟨⟨⟨"a]m", "u2", "s2", ["m"]⟩, by decide, rfl⟩, by decide, by decide,
    by decide, by decide⟩

/-! ## Claim C9: configuration validation -/

theorem validateModels_ok_iff (name : String) :
    ∀ (j : Nat) (ms : List String),
      validateModels name j ms = Except.ok () ↔ ∀ mo ∈ ms, mo ≠ "" := by
  intro j ms
  induction ms generalizing j with
  | nil => simp [validateModels]
  | cons m rest ih =>
    by_cases hm : m = ""
    · simp [validateModels, hm]
    · simp [validateModels, hm, ih (j+1)]

theorem validateProviders_ok_iff (urlErr : String → Option String) :
    ∀ (i : Nat) (ps : List Provider),
      validateProviders urlErr i ps = Except.ok () ↔
        ∀ p ∈ ps, p.Name ≠ "" ∧ p.URL ≠ "" ∧ urlErr p.URL = none ∧
          p.Secret ≠ "" ∧ p.Models ≠ [] ∧ ∀ mo ∈ p.Models, mo ≠ "" := by
  intro i ps
  induction ps generalizing i with
  | nil => simp [validateProviders]
  | cons p rest ih =>
    by_cases hname : p.Name = ""
    · simp [validateProviders, hname]
    · by_cases hurl : p.URL = ""
      · simp [validateProviders, hname, hurl]
      · cases herr : urlErr p.URL with
        | some e => simp [validateProviders, hname, hurl, herr]
        | none =>
          by_cases hsec : p.Secret = ""
          · simp [validateProviders, hname, hurl, herr, hsec]
          · by_cases hmodels : p.Models.isEmpty
            · have : p.Models = [] := by
                cases hM : p.Models with
                | nil => rfl
                | cons a b => rw [hM] at hmodels; simp [List.isEmpty] at hmodels
              simp [validateProviders, hname, hurl, herr, hsec, hmodels, this]
            · have hne : p.Models ≠ [] := by
                intro hM; rw [hM] at hmodels; simp [List.isEmpty] at hmodels
              cases hvm : validateModels p.Name 0 p.Models with
              | error e =>
                have : ¬ ∀ mo ∈ p.Models, mo ≠ "" := by
                  intro hall
                  rw [← validateModels_ok_iff p.Name 0 p.Models] at hall
                  rw [hvm] at hall
                  exact Except.noConfusion hall
                simp [validateProviders, hname, hurl, herr, hsec, hmodels, hvm,
                  hne, this]
              | ok u =>
                obtain ⟨⟩ := u
                have hall : ∀ mo ∈ p.Models, mo ≠ "" :=
                  (validateModels_ok_iff p.Name 0 p.Models).mp hvm
                have hstep : validateProviders urlErr i (p :: rest) =
                    validateProviders urlErr (i+1) rest := by
                  simp [validateProviders, hname, hurl, herr, hsec, hmodels,
                    hvm]
                rw [hstep, ih (i+1), List.forall_mem_cons]
                constructor
                · intro h
                  exact ⟨⟨hname, hurl, herr, hsec, hne, hall⟩, h⟩
                · rintro ⟨_, h⟩
                  exact h

/-- Claim C9: `Validate` succeeds exactly when the port lies in `[1,65535]`,
at least one provider is configured, and every provider has non-empty name,
non-empty parseable URL, non-empty secret and a non-empty model list with no
empty model name; the concrete scenario configuration validates, and the same
configuration with port 0 fails with the port-range message. -/
theorem claim_C9_validate :
    (∀ (urlErr : String → Option String) (c : Config),
      c.Validate urlErr = Except.ok () ↔
        (1 ≤ c.Port ∧ c.Port ≤ 65535 ∧ c.Providers ≠ [] ∧
          ∀ p ∈ c.Providers, p.Name ≠ "" ∧ p.URL ≠ "" ∧ urlErr p.URL = none ∧
            p.Secret ≠ "" ∧ p.Models ≠ [] ∧ ∀ mo ∈ p.Models, mo ≠ ""))
    ∧ Config.Validate ⟨8080, "", [⟨"a", "https://x", "s", ["m1"]⟩]⟩
        (fun _ => none) = Except.ok ()
    ∧ Config.Validate ⟨0, "", [⟨"a", "https://x", "s", ["m1"]⟩]⟩
        (fun _ => none) =
          Except.error "port must be between 1 and 65535" := by
  refine ⟨?_, rfl, rfl⟩
  intro urlErr c
  by_cases hport : c.Port ≤ 0 ∨ 65535 < c.Port
  · simp only [Config.Validate, if_pos hport]
    constructor
    · intro h; exact Except.noConfusion h
    · rintro ⟨h1, h2, _⟩; omega
  · by_cases hprov : c.Providers.isEmpty
    · have hnil : c.Providers = [] := by
        cases hP : c.Providers with
        | nil => rfl
        | cons a b => rw [hP] at hprov; simp [List.isEmpty] at hprov
      simp only [Config.Validate, if_neg hport, if_pos hprov, hnil]
      constructor
      · intro h; exact Except.noConfusion h
      · rintro ⟨_, _, hne, _⟩; exact absurd rfl hne
    · have hne : c.Providers ≠ [] := by
        intro hP; rw [hP] at hprov; simp [List.isEmpty] at hprov
      simp only [Config.Validate, if_neg hport, if_neg hprov]
      rw [validateProviders_ok_iff urlErr 0 c.Providers]
      push_neg at hport
      constructor
      · intro h
        exact ⟨by omega, by omega, hne, h⟩
      · rintro ⟨_, _, _, h⟩
        exact h

/-- Witness for C9: the equivalence applied at a fresh concrete
configuration. -/
theorem claim_C9_witness :
    Config.Validate ⟨9000, "info", [⟨"b", "u", "t", ["m2", "m3"]⟩]⟩
      (fun _ => none) = Except.ok () :=
  (claim_C9_validate.1 (fun _ => none)
    ⟨9000, "info", [⟨"b", "u", "t", ["m2", "m3"]⟩]⟩).mpr (by decide)

/-- Claim C8: a failing load leaves the installed configuration untouched and
reports the load error; a candidate failing validation leaves it untouched and
reports the validation error; the installed configuration changes only to a
candidate that loaded and validated successfully. -/
theorem claim_C8_reload :
    (∀ (urlErr : String → Option String) (installed : Config) (e : String),
      ConfigReloadHandler urlErr installed (Except.error e) =
        (installed, ReloadResponse.loadFailed e))
    ∧ (∀ (urlErr : String → Option String) (installed cand : Config)
        (e : String), cand.Validate urlErr = Except.error e →
          ConfigReloadHandler urlErr installed (Except.ok cand) =
            (installed, ReloadResponse.validationFailed e))
    ∧ (∀ (urlErr : String → Option String) (installed : Config)
        (loadResult : Except String Config),
        (ConfigReloadHandler urlErr installed loadResult).1 ≠ installed →
          ∃ cand, loadResult = Except.ok cand ∧
            cand.Validate urlErr = Except.ok () ∧
            (ConfigReloadHandler urlErr installed loadResult).1 = cand ∧
            (ConfigReloadHandler urlErr installed loadResult).2 =
              ReloadResponse.reloadOk cand.Providers.length) := by
  refine ⟨fun _ _ _ => rfl, ?_, ?_⟩
  · intro urlErr installed cand e hval
    simp [ConfigReloadHandler, hval]
  · intro urlErr installed loadResult hchange
    cases loadResult with
    | error e => exact absurd rfl hchange
    | ok cand =>
      cases hval : cand.Validate urlErr with
      | error e =>
        rw [show ConfigReloadHandler urlErr installed (Except.ok cand) =
          (installed, ReloadResponse.validationFailed e) by
            simp [ConfigReloadHandler, hval]] at hchange
        exact absurd rfl hchange
      | ok u =>
        obtain ⟨⟩ := u
        refine ⟨cand, rfl, hval, ?_, ?_⟩ <;>
          simp [ConfigReloadHandler, hval]

/-- Witness for C8: a candidate with port 0 fails validation and the installed
configuration survives. -/
theorem claim_C8_witness :
    ConfigReloadHandler (fun _ => none)
      ⟨8080, "", [⟨"a", "https://x", "s", ["m1"]⟩]⟩
      (Except.ok ⟨0, "", [⟨"a", "https://x", "s", ["m1"]⟩]⟩) =
      (⟨8080, "", [⟨"a", "https://x", "s", ["m1"]⟩]⟩,
        ReloadResponse.validationFailed "port must be between 1 and 65535") :=
  claim_C8_reload.2.1 (fun _ => none)
    ⟨8080, "", [⟨"a", "https://x", "s", ["m1"]⟩]⟩
    ⟨0, "", [⟨"a", "https://x", "s", ["m1"]⟩]⟩
    "port must be between 1 and 65535" rfl

/-! ## Claim C7: request body transformation -/

theorem getBoolD_eq_false_of_not_bool (o : JObj) (key : String)
    (h : ∀ b : Bool, J.get o key ≠ some (JVal.bool b)) :
    J.getBoolD o key = false := by
  unfold J.getBoolD
  cases hg : J.get o key with
  | none => rfl
  | some v =>
    cases v with
    | bool b => exact absurd hg (h b)
    | null => rfl
    | num n => rfl
    | str s => rfl
    | arr xs => rfl
    | obj fs => rfl

/-- Claim C7: the outbound payload differs from the inbound mapping only in
`model` (replaced by the stripped provider-local name) and `stream` (forced
`true`); all other keys, `messages` included, come back unchanged; the
recorded streaming intent is the ok-pattern boolean, `false` whenever the
inbound `stream` is absent or not a boolean. -/
theorem claim_C7_transform (ps : List Provider) (body : JObj) (intent : Bool)
    (outb : JObj)
    (h : ForwardRequestTransform ps body = some (intent, outb)) :
    (∀ k, k ≠ "model" → k ≠ "stream" → J.get outb k = J.get body k)
    ∧ (∃ mn, J.getStr body "model" = some mn ∧
        J.get outb "model" = some (JVal.str (GetActualModelName ps mn)))
    ∧ J.get outb "stream" = some (JVal.bool true)
    ∧ intent = J.getBoolD body "stream"
    ∧ ((∀ b : Bool, J.get body "stream" ≠ some (JVal.bool b)) →
        intent = false) := by
  unfold ForwardRequestTransform at h
  cases hmn : J.getStr body "model" with
  | none => rw [hmn] at h; exact Option.noConfusion h
  | some mn =>
    rw [hmn] at h
    have h1 : (match FindProvider ps mn with
        | none => none
        | some _ => some (J.getBoolD body "stream",
            J.set (J.set body "model" (JVal.str (GetActualModelName ps mn)))
              "stream" (JVal.bool true))) = some (intent, outb) := h
    cases hfp : FindProvider ps mn with
    | none => rw [hfp] at h1; exact Option.noConfusion h1
    | some p =>
      rw [hfp] at h1
      have h2 : some (J.getBoolD body "stream",
          J.set (J.set body "model" (JVal.str (GetActualModelName ps mn)))
            "stream" (JVal.bool true)) = some (intent, outb) := h1
      simp only [Option.some.injEq, Prod.mk.injEq] at h2
      obtain ⟨hi, ho⟩ := h2
      subst hi
      subst ho
      refine ⟨?_, ⟨mn, rfl, ?_⟩, ?_, rfl, ?_⟩
      · intro k hk1 hk2
        rw [J.get_set_ne _ _ _ _ hk2, J.get_set_ne _ _ _ _ hk1]
      · rw [J.get_set_ne _ _ _ _ (by decide), J.get_set_self]
      · rw [J.get_set_self]
      · intro hnb
        exact getBoolD_eq_false_of_not_bool body "stream" hnb

/-- Witness for C7 at the concrete request: `messages` and the unknown field
survive, `model` is stripped, `stream` is forced, the intent defaults to
`false`. -/
theorem claim_C7_witness :
    J.get outC7 "messages" = J.get bodyC7 "messages" ∧
    J.get outC7 "temperature" = J.get bodyC7 "temperature" ∧
    J.get outC7 "model" = some (JVal.str "m1") ∧
    J.get outC7 "stream" = some (JVal.bool true) ∧
    (false : Bool) = J.getBoolD bodyC7 "stream" := by
  have h := claim_C7_transform psC7 bodyC7 false outC7 rfl
  refine ⟨h.1 "messages" (by decide) (by decide),
    h.1 "temperature" (by decide) (by decide), ?_, h.2.2.1, h.2.2.2.1⟩
  obtain ⟨mn, hmn, hmodel⟩ := h.2.1
  have hmn' : mn = "[a]m1" := by
    have heq : some "[a]m1" = some mn := by
      rw [← hmn]; rfl
    exact (Option.some.injEq _ _ ▸ heq).symm
  subst hmn'
  exact hmodel

theorem chunkEmission_false (u : JObj) (m : String) :
    chunkEmission false u m = [] := by
  simp [chunkEmission]

theorem emissionsFor_false (m : String) (chunks : List JObj) :
    emissionsFor false m chunks = [] := by
  induction chunks with
  | nil => rfl
  | cons u rest ih => simp [emissionsFor, chunkEmission_false, ih]

theorem expectedOut_false (dec : String → Option JObj) (m : String)
    (lines : List String) : expectedOut dec false m lines = [] := by
  simp [expectedOut, emissionsFor_false]

theorem handleStream_false_out (dec : String → Option JObj) (m : String)
    (lines : List String) :
    (HandleStreamResponse dec lines false m).out = [] := by
  unfold HandleStreamResponse
  rw [processLines_characterization]
  cases (decodedChunks dec lines).head? <;>
    simp [keepFirst, expectedOut_false]

theorem handleStream_false_body (dec : String → Option JObj) (m : String)
    (lines : List String) :
    (HandleStreamResponse dec lines false m).body =
      (decodedChunks dec lines).head?.map
        (fun f => aggregateFirst f (contentConcat dec lines)) := by
  unfold HandleStreamResponse
  rw [processLines_characterization]
  cases (decodedChunks dec lines).head? <;>
    simp [keepFirst, String.empty_append]

theorem handleStream_true_out (dec : String → Option JObj) (m : String)
    (lines : List String) :
    (HandleStreamResponse dec lines true m).out =
      expectedOut dec true m lines := by
  unfold HandleStreamResponse
  rw [processLines_characterization]
  rfl

theorem emittedChunks_append (a b : List Out) :
    emittedChunks (a ++ b) = emittedChunks a ++ emittedChunks b := by
  simp [emittedChunks, List.filterMap_append]

theorem emittedChunks_emissionsFor (m : String) (chunks : List JObj) :
    emittedChunks (emissionsFor true m chunks) =
      (chunks.filter hasDeltaShape).map (fun u => normalizeChunk u m) := by
  induction chunks with
  | nil => rfl
  | cons u rest ih =>
    rw [emissionsFor, emittedChunks_append]
    by_cases h : hasDeltaShape u
    · have h1 : chunkEmission true u m =
          [Out.dataChunk (normalizeChunk u m), Out.flush] := by
        simp [chunkEmission, h]
      have h2 : emittedChunks
          [Out.dataChunk (normalizeChunk u m), Out.flush] =
          [normalizeChunk u m] := rfl
      rw [h1, h2, ih, List.filter_cons]
      simp [h]
    · simp only [Bool.not_eq_true] at h
      have h1 : chunkEmission true u m = [] := by simp [chunkEmission, h]
      have h2 : emittedChunks ([] : List Out) = [] := rfl
      rw [h1, h2, ih, List.filter_cons]
      simp [h]

theorem emittedChunks_expectedOut (dec : String → Option JObj) (m : String)
    (lines : List String) :
    emittedChunks (expectedOut dec true m lines) =
      ((decodedChunks dec lines).filter hasDeltaShape).map
        (fun u => normalizeChunk u m) := by
  rw [expectedOut, emittedChunks_append, emittedChunks_emissionsFor]
  cases sawDone lines <;> simp [emittedChunks]

theorem wellFlushed_emissionsFor (s : Bool) (m : String) :
    ∀ (chunks : List JObj) (L : List Out), wellFlushed L = true →
      wellFlushed (emissionsFor s m chunks ++ L) = true := by
  intro chunks
  induction chunks with
  | nil => intro L hL; simpa [emissionsFor] using hL
  | cons u rest ih =>
    intro L hL
    by_cases h : s && hasDeltaShape u
    · simp only [emissionsFor, chunkEmission, h, if_pos]
      simpa [wellFlushed] using ih L hL
    · simp only [Bool.not_eq_true] at h
      simp only [emissionsFor, chunkEmission, h, if_neg, Bool.false_eq_true,
        not_false_eq_true, List.nil_append]
      exact ih L hL

theorem wellFlushed_expectedOut (dec : String → Option JObj) (s : Bool)
    (m : String) (lines : List String) :
    wellFlushed (expectedOut dec s m lines) = true := by
  rw [expectedOut]
  apply wellFlushed_emissionsFor
  cases s <;> cases hs : sawDone lines <;> simp [wellFlushed]

/-! ## Field lemmas on normalization and finalization -/

theorem normalizeIdObjModel_model (u : JObj) (m : String) :
    J.get (normalizeIdObjModel u m) "model" = some (JVal.str m) := by
  unfold normalizeIdObjModel
  exact J.get_set_self _ _ _

theorem normalizeIdObjModel_object (u : JObj) (m : String) :
    J.get (normalizeIdObjModel u m) "object" =
      some (JVal.str "chat.completion.chunk") := by
  unfold normalizeIdObjModel
  rw [J.get_set_ne _ _ _ _ (by decide)]
  exact J.get_set_self _ _ _

theorem normalizeIdObjModel_id_of_id (u : JObj) (m s : String)
    (h : J.getStr u "id" = some s) :
    J.get (normalizeIdObjModel u m) "id" = some (JVal.str s) := by
  unfold normalizeIdObjModel
  rw [h]
  rw [J.get_set_ne _ _ _ _ (by decide), J.get_set_ne _ _ _ _ (by decide)]
  exact J.get_set_self _ _ _

theorem normalizeIdObjModel_id_of_trace (u : JObj) (m t : String)
    (h1 : J.getStr u "id" = none) (h2 : J.getStr u "trace_id" = some t) :
    J.get (normalizeIdObjModel u m) "id" = some (JVal.str t) := by
  unfold normalizeIdObjModel
  rw [h1, h2]
  rw [J.get_set_ne _ _ _ _ (by decide), J.get_set_ne _ _ _ _ (by decide)]
  exact J.get_set_self _ _ _

theorem reconstructChunk_get_ne_choices (chunk choice : JObj)
    (ct : List JVal) (delta : JObj) (m key : String)
    (h : key ≠ "choices") :
    J.get (reconstructChunk chunk choice ct delta m) key =
      J.get (normalizeIdObjModel chunk m) key := by
  unfold reconstructChunk
  split
  · exact J.get_set_ne _ _ _ _ h
  · rfl

/-- Unpacking `hasDeltaShape`: the matched components exist and
`normalizeChunk` runs the reconstruction on them. -/
theorem normalizeChunk_eq_reconstruct (u : JObj) (m : String)
    (h : hasDeltaShape u = true) :
    ∃ choice tail delta, J.getArr u "choices" =
        some (JVal.obj choice :: tail) ∧
      J.getObj choice "delta" = some delta ∧
      normalizeChunk u m = reconstructChunk u choice tail delta m := by
  unfold hasDeltaShape at h
  cases hga : J.getArr u "choices" with
  | none => simp [hga] at h
  | some xs =>
    cases xs with
    | nil => simp [hga] at h
    | cons hd tl =>
      cases hd with
      | obj choice =>
        cases hgd : J.getObj choice "delta" with
        | none => simp [hga, hgd] at h
        | some delta =>
          refine ⟨choice, tl, delta, rfl, hgd, ?_⟩
          simp only [normalizeChunk, hga, hgd]
      | null => simp [hga] at h
      | bool b => simp [hga] at h
      | num n => simp [hga] at h
      | str s => simp [hga] at h
      | arr a => simp [hga] at h

theorem normalizeChunk_get_ne_choices (u : JObj) (m key : String)
    (hshape : hasDeltaShape u = true) (h : key ≠ "choices") :
    J.get (normalizeChunk u m) key =
      J.get (normalizeIdObjModel u m) key := by
  obtain ⟨choice, tail, delta, _, _, heq⟩ :=
    normalizeChunk_eq_reconstruct u m hshape
  rw [heq]
  exact reconstructChunk_get_ne_choices u choice tail delta m key h

theorem aggregateFirst_get_ne (f : JObj) (c key : String)
    (h : key ≠ "choices") :
    J.get (aggregateFirst f c) key = J.get f key := by
  unfold aggregateFirst
  split
  · split
    · exact J.get_set_ne _ _ _ _ h
    · rfl
  · rfl

theorem aggregateFirst_of_no_choices (f : JObj) (c : String)
    (h : J.get f "choices" = none) : aggregateFirst f c = f := by
  have hga : J.getArr f "choices" = none := by
    unfold J.getArr
    rw [h]
  unfold aggregateFirst
  rw [hga]

theorem aggregateFirst_choices (f choice : JObj) (tail : List JVal)
    (c : String) (hch : J.getArr f "choices" = some (JVal.obj choice :: tail))
    (hds : (J.get choice "delta").isSome = true) :
    J.getArr (aggregateFirst f c) "choices" =
      some (JVal.obj (J.set (J.del choice "delta") "message"
        (JVal.obj [("role", JVal.str "assistant"),
                   ("content", JVal.str c)])) :: tail) := by
  simp only [aggregateFirst, hch]
  cases hd : J.get choice "delta" with
  | none => rw [hd] at hds; exact Bool.noConfusion hds
  | some v =>
    simp only [hd]
    unfold J.getArr
    rw [J.get_set_self]

/-- Claim C5: a data payload the decoder rejects leaves loop state, output and
the whole response exactly as if the frame were absent, at any position in the
stream — subsequent valid frames are processed and contribute as before. -/
theorem claim_C5_malformed :
    (∀ (dec : String → Option JObj) (s : Bool) (m l : String)
        (rest : List String) (st : LoopState),
      goHasPrefix l "data:" = true → goTrimPrefix l "data:" ≠ "[DONE]" →
      dec (goTrimPrefix l "data:") = none →
        processLines dec s m (l :: rest) st = processLines dec s m rest st)
    ∧ (∀ (dec : String → Option JObj) (s : Bool) (m l : String)
        (rest : List String),
      goHasPrefix l "data:" = true → goTrimPrefix l "data:" ≠ "[DONE]" →
      dec (goTrimPrefix l "data:") = none →
        HandleStreamResponse dec (l :: rest) s m =
          HandleStreamResponse dec rest s m) := by
  refine ⟨processLines_cons_skip, ?_⟩
  intro dec s m l rest h1 h2 h3
  unfold HandleStreamResponse
  rw [processLines_cons_skip dec s m l rest _ h1 h2 h3]

/-- Witness for C5: dropping the malformed head frame leaves the response
unchanged, and the valid frame after it still contributes its content. -/
theorem claim_C5_witness :
    HandleStreamResponse decC5 ["data:notjson", "data:" ++ payloadC5] false
        "m" =
      HandleStreamResponse decC5 ["data:" ++ payloadC5] false "m" ∧
    (HandleStreamResponse decC5 ["data:notjson", "data:" ++ payloadC5] false
      "m").fullContent = "ok" :=
  ⟨claim_C5_malformed.2 decC5 false "m" "data:notjson"
    ["data:" ++ payloadC5] (by decide) (by decide) rfl, rfl⟩

/-- Claim C2 (amended): the loop terminates on a data line whose payload after
stripping `data:` equals `[DONE]` **exactly — no whitespace trimming**; then
the terminator and a flush are emitted when the client streams, the state is
untouched (no chunk content contributed), remaining lines are ignored, and
finalization proceeds. -/
theorem claim_C2_amended :
    (∀ (dec : String → Option JObj) (s : Bool) (m l : String)
        (rest : List String) (st : LoopState),
      goHasPrefix l "data:" = true → goTrimPrefix l "data:" = "[DONE]" →
        processLines dec s m (l :: rest) st =
          ((if s then [Out.dataDone, Out.flush] else []), st))
    ∧ (∀ (dec : String → Option JObj) (m l : String) (rest : List String),
      goHasPrefix l "data:" = true → goTrimPrefix l "data:" = "[DONE]" →
        HandleStreamResponse dec (l :: rest) true m =
          { out := [Out.dataDone, Out.flush], body := none, chunkCount := 0,
            fullContent := "" }) := by
  refine ⟨processLines_cons_done, ?_⟩
  intro dec m l rest h1 h2
  unfold HandleStreamResponse
  rw [processLines_cons_done dec true m l rest _ h1 h2]
  rfl

/-- Witness for C2: the exact sentinel line terminates the stream, emits the
terminator, and ignores everything after it. -/
theorem claim_C2_witness :
    HandleStreamResponse (fun _ => none) ["data:[DONE]", "data:junk"] true
        "m" =
      { out := [Out.dataDone, Out.flush], body := none, chunkCount := 0,
        fullContent := "" } :=
  claim_C2_amended.2 (fun _ => none) "m" "data:[DONE]" ["data:junk"]
    (by decide) (by decide)

/-- Counterexample to C2 as stated: the payload `" [DONE]"` equals `[DONE]`
after trimming, yet the stream does **not** terminate there — no terminator is
emitted and the following chunk is still decoded and forwarded (the code
compares the payload without trimming). -/
theorem claim_C2_counterexample :
    goTrimSpace (payloadOf "data: [DONE]") = "[DONE]" ∧
    payloadOf "data: [DONE]" ≠ "[DONE]" ∧
    decC2 (payloadOf "data: [DONE]") = none ∧
    (HandleStreamResponse decC2 linesC2 true "m").out =
      [Out.dataChunk [("choices", JVal.arr [JVal.obj
          [("delta", JVal.obj [("content", JVal.str "x")])]]),
        ("object", JVal.str "chat.completion.chunk"),
        ("model", JVal.str "m")], Out.flush] ∧
    (HandleStreamResponse decC2 linesC2 true "m").chunkCount = 1 := by
  refine ⟨by decide, by decide, rfl, rfl, rfl⟩

/-- Claim C4 (amended): on the streaming path the emitted chunks are exactly
the normalized forms, in order, of the decoded chunks **whose first choice is
an object carrying a `delta` object** (the original claim's "every
successfully decoded chunk" fails for chunks without that shape — see the
counterexample); each `data:` event, the `[DONE]` terminator included, is
flushed immediately. -/
theorem claim_C4_amended :
    (∀ (dec : String → Option JObj) (m : String) (lines : List String),
      emittedChunks ((HandleStreamResponse dec lines true m).out) =
        ((decodedChunks dec lines).filter hasDeltaShape).map
          (fun u => normalizeChunk u m))
    ∧ (∀ (dec : String → Option JObj) (m : String) (lines : List String),
      wellFlushed ((HandleStreamResponse dec lines true m).out) = true) := by
  constructor
  · intro dec m lines
    rw [handleStream_true_out, emittedChunks_expectedOut]
  · intro dec m lines
    rw [handleStream_true_out]
    exact wellFlushed_expectedOut dec true m lines

/-- Counterexample to C4 as stated: the usage-only frame decodes successfully
(it is counted), yet nothing at all is emitted to the streaming client — the
chunk is withheld because its first choice carries no `delta`. -/
theorem claim_C4_counterexample :
    decodedChunks decC4 linesC4 = [chunkC4] ∧
    (HandleStreamResponse decC4 linesC4 true "m").chunkCount = 1 ∧
    (HandleStreamResponse decC4 linesC4 true "m").out = [] := by
  refine ⟨rfl, rfl, rfl⟩

/-- Claim C3 (amended): every chunk emitted on the **streaming** path has
`object` forced to `chat.completion.chunk`, `model` forced to the
client-requested identifier, and `id` repointed at the upstream string `id`
when present, else at the string `trace_id`; the outbound `id` is therefore
stable across a request whenever the upstream ids are.  The **aggregated**
response is not normalized: it retains the first chunk's `id`, `object` and
`model` unchanged (the original claim asserted normalization for it too — see
the counterexample). -/
theorem claim_C3_amended :
    (∀ (dec : String → Option JObj) (m : String) (lines : List String)
        (c : JObj),
      c ∈ emittedChunks ((HandleStreamResponse dec lines true m).out) →
        J.get c "object" = some (JVal.str "chat.completion.chunk") ∧
        J.get c "model" = some (JVal.str m) ∧
        ∃ u ∈ decodedChunks dec lines, c = normalizeChunk u m ∧
          (∀ s', J.getStr u "id" = some s' →
            J.get c "id" = some (JVal.str s')) ∧
          (J.getStr u "id" = none → ∀ t, J.getStr u "trace_id" = some t →
            J.get c "id" = some (JVal.str t)))
    ∧ (∀ (dec : String → Option JObj) (m : String) (lines : List String)
        (i0 : String),
      (∀ u ∈ decodedChunks dec lines, J.getStr u "id" = some i0) →
        ∀ c ∈ emittedChunks ((HandleStreamResponse dec lines true m).out),
          J.get c "id" = some (JVal.str i0))
    ∧ (∀ (dec : String → Option JObj) (m : String) (lines : List String)
        (f : JObj) (rest : List JObj),
      decodedChunks dec lines = f :: rest →
        ∃ b, (HandleStreamResponse dec lines false m).body = some b ∧
          J.get b "id" = J.get f "id" ∧
          J.get b "object" = J.get f "object" ∧
          J.get b "model" = J.get f "model") := by
  have hmain : ∀ (dec : String → Option JObj) (m : String)
      (lines : List String) (c : JObj),
      c ∈ emittedChunks ((HandleStreamResponse dec lines true m).out) →
        J.get c "object" = some (JVal.str "chat.completion.chunk") ∧
        J.get c "model" = some (JVal.str m) ∧
        ∃ u ∈ decodedChunks dec lines, c = normalizeChunk u m ∧
          (∀ s', J.getStr u "id" = some s' →
            J.get c "id" = some (JVal.str s')) ∧
          (J.getStr u "id" = none → ∀ t, J.getStr u "trace_id" = some t →
            J.get c "id" = some (JVal.str t)) := by
    intro dec m lines c hc
    rw [handleStream_true_out, emittedChunks_expectedOut] at hc
    obtain ⟨u, hu, hcu⟩ := List.mem_map.mp hc
    obtain ⟨humem, hshape⟩ := List.mem_filter.mp hu
    subst hcu
    have hobj : J.get (normalizeChunk u m) "object" =
        some (JVal.str "chat.completion.chunk") := by
      rw [normalizeChunk_get_ne_choices u m "object" hshape (by decide)]
      exact normalizeIdObjModel_object u m
    have hmod : J.get (normalizeChunk u m) "model" = some (JVal.str m) := by
      rw [normalizeChunk_get_ne_choices u m "model" hshape (by decide)]
      exact normalizeIdObjModel_model u m
    refine ⟨hobj, hmod, u, humem, rfl, ?_, ?_⟩
    · intro s' hs'
      rw [normalizeChunk_get_ne_choices u m "id" hshape (by decide)]
      exact normalizeIdObjModel_id_of_id u m s' hs'
    · intro hnone t ht
      rw [normalizeChunk_get_ne_choices u m "id" hshape (by decide)]
      exact normalizeIdObjModel_id_of_trace u m t hnone ht
  refine ⟨hmain, ?_, ?_⟩
  · intro dec m lines i0 hall c hc
    obtain ⟨_, _, u, humem, _, hid, _⟩ := hmain dec m lines c hc
    exact hid i0 (hall u humem)
  · intro dec m lines f rest h
    rw [handleStream_false_body, h]
    refine ⟨aggregateFirst f (contentConcat dec lines), rfl, ?_, ?_, ?_⟩ <;>
      exact aggregateFirst_get_ne f (contentConcat dec lines) _ (by decide)

/-- Witness for C3: a chunk with only a `trace_id` is emitted with `object`
and `model` forced and `id` taken from `trace_id`. -/
theorem claim_C3_witness :
    J.get normalizedC3w "object" = some (JVal.str "chat.completion.chunk") ∧
    J.get normalizedC3w "model" = some (JVal.str "mw") ∧
    J.get normalizedC3w "id" = some (JVal.str "tr7") := by
  have hev : emittedChunks ((HandleStreamResponse decC3w linesC3w true
      "mw").out) = [normalizedC3w] := rfl
  have hmem : normalizedC3w ∈ emittedChunks ((HandleStreamResponse decC3w
      linesC3w true "mw").out) := by
    rw [hev]
    exact List.Mem.head _
  obtain ⟨hobj, hmod, u, humem, hcu, hid, htr⟩ :=
    claim_C3_amended.1 decC3w "mw" linesC3w normalizedC3w hmem
  have hdc : decodedChunks decC3w linesC3w = [chunkC3w] := rfl
  rw [hdc] at humem
  have hu : u = chunkC3w := List.mem_singleton.mp humem
  subst hu
  exact ⟨hobj, hmod, htr rfl "tr7" rfl⟩

/-- Counterexample to C3 as stated: (1) the aggregated response keeps the
upstream `object` (`chat.completion`, not the literal
`chat.completion.chunk`) and the upstream `model` (`up`, not the
client-requested `[p]m`); (2) on the streaming path the outbound ids follow
the per-chunk upstream ids (`a` then `b`), so the id is not stable across the
events of one request. -/
theorem claim_C3_counterexample :
    (HandleStreamResponse decC3 ["data:" ++ payloadC3a, "data:[DONE]"] false
        "[p]m").body = some bodyC3 ∧
    J.get bodyC3 "object" = some (JVal.str "chat.completion") ∧
    ("chat.completion" : String) ≠ "chat.completion.chunk" ∧
    J.get bodyC3 "model" = some (JVal.str "up") ∧
    ("up" : String) ≠ "[p]m" ∧
    (emittedChunks ((HandleStreamResponse decC3
        ["data:" ++ payloadC3b1, "data:" ++ payloadC3b2, "data:[DONE]"] true
        "[p]m").out)).map (fun c => J.get c "id") =
      [some (JVal.str "a"), some (JVal.str "b")] ∧
    ("a" : String) ≠ "b" := by
  refine ⟨rfl, rfl, by decide, rfl, by decide, rfl, by decide⟩

/-- Unpacking `firstHasDeltaKey`: the template's first choice is an object
carrying a `delta` key. -/
theorem firstHasDeltaKey_unpack (f : JObj) (h : firstHasDeltaKey f = true) :
    ∃ choice tail, J.getArr f "choices" = some (JVal.obj choice :: tail) ∧
      (J.get choice "delta").isSome = true := by
  unfold firstHasDeltaKey at h
  cases hga : J.getArr f "choices" with
  | none => simp [hga] at h
  | some xs =>
    cases xs with
    | nil => simp [hga] at h
    | cons hd tl =>
      cases hd with
      | obj choice =>
        rw [hga] at h
        exact ⟨choice, tl, rfl, h⟩
      | null => simp [hga] at h
      | bool b => simp [hga] at h
      | num n => simp [hga] at h
      | str s => simp [hga] at h
      | arr a => simp [hga] at h

theorem aggMessage_of_choices (b choice : JObj) (tail : List JVal)
    (hb : J.getArr b "choices" = some (JVal.obj choice :: tail)) :
    aggMessage b = J.get choice "message" := by
  simp only [aggMessage, hb]

/-- Claim C1 (amended): for a non-streaming client nothing is written during
the loop; with no decoded event no body is written at all; with at least one
decoded event exactly one JSON object is written, and **provided the first
decoded chunk's first choice is an object carrying a `delta` key** (the
original claim fails without that proviso — see the counterexample) its
`message` is role `assistant` with content the exact in-order concatenation of
the decoded chunks' `delta.content` fragments. -/
theorem claim_C1_amended :
    (∀ (dec : String → Option JObj) (lines : List String) (m : String),
      (HandleStreamResponse dec lines false m).out = [])
    ∧ (∀ (dec : String → Option JObj) (lines : List String) (m : String),
      decodedChunks dec lines = [] →
        (HandleStreamResponse dec lines false m).body = none)
    ∧ (∀ (dec : String → Option JObj) (lines : List String) (m : String)
        (f : JObj) (rest : List JObj),
      decodedChunks dec lines = f :: rest →
        ∃ b, (HandleStreamResponse dec lines false m).body = some b ∧
          (firstHasDeltaKey f = true →
            aggMessage b = some (JVal.obj
              [("role", JVal.str "assistant"),
               ("content", JVal.str (contentConcat dec lines))]))) := by
  refine ⟨fun dec lines m => handleStream_false_out dec m lines, ?_, ?_⟩
  · intro dec lines m h
    rw [handleStream_false_body, h]
    rfl
  · intro dec lines m f rest h
    rw [handleStream_false_body, h]
    refine ⟨aggregateFirst f (contentConcat dec lines), rfl, ?_⟩
    intro hdk
    obtain ⟨choice, tail, hch, hds⟩ := firstHasDeltaKey_unpack f hdk
    have hagg := aggregateFirst_choices f choice tail
      (contentConcat dec lines) hch hds
    rw [aggMessage_of_choices _ _ _ hagg]
    exact J.get_set_self _ _ _

/-- Witness for C1: two delta chunks `He` and `llo` followed by `[DONE]`
aggregate into one body whose message is role `assistant`, content
`Hello`. -/
theorem claim_C1_witness :
    (HandleStreamResponse decC1w linesC1w false "m").body = some bodyC1w ∧
    aggMessage bodyC1w = some (JVal.obj [("role", JVal.str "assistant"),
      ("content", JVal.str "Hello")]) := by
  obtain ⟨b, hb, hmsg⟩ := claim_C1_amended.2.2 decC1w linesC1w "m" chunkC1w1
    [chunkC1w2] rfl
  have h0 : (HandleStreamResponse decC1w linesC1w false "m").body =
      some bodyC1w := rfl
  have hbe : b = bodyC1w := by
    rw [hb] at h0
    exact Option.some.inj h0
  subst hbe
  have h2 := hmsg rfl
  rw [show contentConcat decC1w linesC1w = "Hello" from rfl] at h2
  exact ⟨hb, h2⟩

/-- Counterexample to C1 as stated: the stream carries the fragment `hi`, yet
the aggregated body is the first chunk unchanged and has **no** `message` at
all (its first choice carried no `delta` key), so `message.content` does not
equal the concatenation. -/
theorem claim_C1_counterexample :
    contentConcat decC1 linesC1 = "hi" ∧
    (HandleStreamResponse decC1 linesC1 false "m").body = some chunkC1a ∧
    aggMessage chunkC1a = none := by
  refine ⟨rfl, rfl, rfl⟩

/-- Claim C10 (amended): the aggregated body is exactly the first decoded
chunk with, **when its first choice is an object carrying a `delta` key**, that
key deleted and a `message` (role `assistant`, content the accumulated text)
added — the original claim's unconditional "a message key added" fails
otherwise (see the counterexample).  Every other top-level field passes
through unchanged, and any field absent from the first chunk (one delivered
only in later chunks, such as `usage` or a final `finish_reason`) is absent
from the body. -/
theorem claim_C10_amended (dec : String → Option JObj) (lines : List String)
    (m : String) (f : JObj) (rest : List JObj)
    (h : decodedChunks dec lines = f :: rest) :
    ∃ b, (HandleStreamResponse dec lines false m).body = some b ∧
      (∀ k, k ≠ "choices" → J.get b k = J.get f k) ∧
      (∀ k, J.get f k = none → J.get b k = none) ∧
      (∀ choice tail,
        J.getArr f "choices" = some (JVal.obj choice :: tail) →
        (J.get choice "delta").isSome = true →
          J.getArr b "choices" = some (JVal.obj
            (J.set (J.del choice "delta") "message"
              (JVal.obj [("role", JVal.str "assistant"),
                ("content", JVal.str (contentConcat dec lines))])) ::
            tail)) := by
  rw [handleStream_false_body, h]
  refine ⟨aggregateFirst f (contentConcat dec lines), rfl, ?_, ?_, ?_⟩
  · intro k hk
    exact aggregateFirst_get_ne f (contentConcat dec lines) k hk
  · intro k hk
    by_cases hkc : k = "choices"
    · subst hkc
      rw [aggregateFirst_of_no_choices f (contentConcat dec lines) hk]
      exact hk
    · rw [aggregateFirst_get_ne f (contentConcat dec lines) k hkc]
      exact hk
  · intro choice tail hch hds
    exact aggregateFirst_choices f choice tail (contentConcat dec lines) hch
      hds

/-- Witness for C10: the extra `created` field passes through, the absent
`usage` stays absent, and the choice's `delta` became the `message`. -/
theorem claim_C10_witness :
    (HandleStreamResponse decC10 linesC10 false "m").body = some bodyC10 ∧
    J.get bodyC10 "created" = J.get chunkC10 "created" ∧
    J.get bodyC10 "usage" = none := by
  obtain ⟨b, hb, hne, habs, hch⟩ := claim_C10_amended decC10 linesC10 "m"
    chunkC10 [] rfl
  have h0 : (HandleStreamResponse decC10 linesC10 false "m").body =
      some bodyC10 := rfl
  have hbe : b = bodyC10 := by
    rw [hb] at h0
    exact Option.some.inj h0
  subst hbe
  exact ⟨hb, hne "created" (by decide), habs "usage" rfl⟩

/-- Counterexample to C10 as stated: with a first chunk whose first choice has
no `delta` key, the aggregated body is that chunk completely unchanged — no
`message` key is added anywhere in it. -/
theorem claim_C10_counterexample :
    decodedChunks decC10x linesC10x = [chunkC10x, chunkC10y] ∧
    (HandleStreamResponse decC10x linesC10x false "m").body =
      some chunkC10x ∧
    aggMessage chunkC10x = none := by
  refine ⟨rfl, rfl, rfl⟩

end LocalRouter

